import Mathlib

/-!
Verification of the modified regula-falsi root finder (modregulafalsi.py).

The Python code works on floats; the shallow embedding below uses ℚ, so every
arithmetic identity is exact.  Python raises ZeroDivisionError on division by
zero; the embedding makes every division that can fail explicit, returning
Option (none = the exception propagates).  The ambient random() source used by
the bracket-search tie-break is modelled as an explicit stream rs : ℕ → ℚ of
draws, consumed left to right; Python compares random() < 0.5.  The unbounded
solver while-loop is modelled with a fuel parameter; runSolver returning none
means the loop has not finished within the given fuel.
-/

namespace ModRegulaFalsi

/-- Module constant tolerance = 0.05 (modregulafalsi.py line 11). -/
def tolerance : ℚ := 1/20

/-- Module constant resolution = 0.0 (modregulafalsi.py line 12). -/
def resolution : ℚ := 0

/-- FalsiFunction.newx_regfalsi (lines 124-129):
ck = (ak*fb - bk*fa) / (fb - fa); none models ZeroDivisionError when
fb - fa = 0. -/
def newx_regfalsi (f : ℚ → ℚ) (ak bk : ℚ) : Option ℚ :=
  if f bk - f ak = 0 then none
  else some ((ak * f bk - bk * f ak) / (f bk - f ak))

/-- FalsiFunction.newx_modregfalsi (lines 131-136):
ck = (ak*beta*fb - bk*alpha*fa) / (beta*fb - alpha*fa); none models
ZeroDivisionError when the denominator vanishes. -/
def newx_modregfalsi (f : ℚ → ℚ) (ak bk alpha beta : ℚ) : Option ℚ :=
  if beta * f bk - alpha * f ak = 0 then none
  else some ((ak * beta * f bk - bk * alpha * f ak) / (beta * f bk - alpha * f ak))

/-- The target value y chosen by newguessbydecay (lines 285-300): the sign
policy branches on fa < 0 and on the sign of the slope (fb - fa)/(b - a). -/
def decayY (f : ℚ → ℚ) (a b : ℚ) : ℚ :=
  if f a < 0 then
    (if (f b - f a) / (b - a) < 0 then |f b| else 2 * |f b|)
  else
    (if (f b - f a) / (b - a) < 0 then (-2) * |f b| else (-1) * |f b|)

/-- newguessbydecay (lines 254-302): slope = (fb - fa)/(b - a), then
c = (y - fa)/slope + a.  In Python computing slope raises when b - a == 0 and
the final division raises when slope == 0; both exceptions are modelled as
none.  (The slope = 0 test is hoisted above the computation of y, which is
total, so the observable behaviour is unchanged.) -/
def newguessbydecay (f : ℚ → ℚ) (a b : ℚ) : Option ℚ :=
  if b - a = 0 then none
  else
    let slope := (f b - f a) / (b - a)
    if slope = 0 then none
    else some ((decayY f a b - f a) / slope + a)

/-- Result of prepareinput / findnewinput: a single exact root (returned alone,
line 232 / 174 / 177), a validated pair, the pair handed back when the 1000
probe iterations are exhausted (line 251), or a propagated ZeroDivisionError
from newguessbydecay. -/
inductive FOut where
  | root (c : ℚ)
  | pair (a b : ℚ)
  | exhausted (a b : ℚ)
  | fail
deriving DecidableEq

/-- Bumps the probe counter of a recursive findnewinput result. -/
def addProbe : FOut × ℕ → FOut × ℕ := fun r => (r.1, r.2 + 1)

/-- The for-loop of findnewinput (lines 218-251), with the remaining iteration
count n as an explicit argument and an instrumented counter of probe
iterations actually entered (second component).  i indexes the next random
draw.  fa, fb always equal f a0, f b0 at the points where Python uses them,
since Python re-evaluates them whenever the pair changes. -/
def findnewinputAux (f : ℚ → ℚ) (rs : ℕ → ℚ) : ℕ → ℕ → ℚ → ℚ → FOut × ℕ
  | _, 0, a0, b0 => (FOut.exhausted a0 b0, 0)
  | i, n+1, a0, b0 =>
    match newguessbydecay f a0 b0 with
    | none => (FOut.fail, 1)
    | some c0 =>
      if c0 < a0 then
        if f c0 * f a0 < 0 then (FOut.pair c0 a0, 1)
        else addProbe (findnewinputAux f rs i n c0 a0)
      else if c0 > b0 then
        if f b0 * f c0 < 0 then (FOut.pair b0 c0, 1)
        else addProbe (findnewinputAux f rs i n b0 c0)
      else if f c0 = 0 then (FOut.root c0, 1)
      else if f a0 * f c0 < 0 then (FOut.pair a0 c0, 1)
      else if f c0 * f b0 < 0 then (FOut.pair c0 b0, 1)
      else if rs i < 1/2 then
        if f c0 * f b0 < 0 then (FOut.pair c0 b0, 1)
        else addProbe (findnewinputAux f rs (i+1) n c0 b0)
      else
        if f a0 * f c0 < 0 then (FOut.pair a0 c0, 1)
        else addProbe (findnewinputAux f rs (i+1) n a0 c0)

/-- findnewinput (lines 186-251): the probe loop capped at 1000 iterations. -/
def findnewinput (f : ℚ → ℚ) (a0 b0 : ℚ) (rs : ℕ → ℚ) : FOut :=
  (findnewinputAux f rs 0 1000 a0 b0).1

/-- prepareinput (lines 139-183): exact roots at the guesses win (a0 checked
first), an opposite-sign pair is passed through, otherwise the bracket search
runs. -/
def prepareinput (f : ℚ → ℚ) (a0 b0 : ℚ) (rs : ℕ → ℚ) : FOut :=
  if f a0 = 0 then FOut.root a0
  else if f b0 = 0 then FOut.root b0
  else if f a0 * f b0 < 0 then FOut.pair a0 b0
  else findnewinput f a0 b0 rs

/-- Which return statement of the solver loop produced the result: the
while-condition 0 <= f(ck) < tolerance failing to hold (line 98), the
resolution early exit (line 74), or the exact-zero return (line 80). -/
inductive RetPath where
  | loopExit
  | resolutionExit
  | exactZero
deriving DecidableEq

/-- Iteration state of the solver loop: iteration counter k, bracket (ak, bk),
previous interior function value fck1 (initialised to -1, line 54), current
interior estimate ck. -/
structure SState where
  k : ℕ
  ak : ℚ
  bk : ℚ
  fck1 : ℚ
  ck : ℚ
deriving DecidableEq

/-- Outcome of one pass of the solver while-loop. -/
inductive StepRes where
  | ret (x : ℚ) (p : RetPath)
  | next (s : SState)
  | divZero

/-- One pass of the while-loop of modregulafalsi (lines 58-95): check the loop
condition, then the resolution early exit, then the two bracket-update
branches with the Illinois damping of alpha resp. beta, ending with the damped
interpolation for the next ck. -/
def solverStep (f : ℚ → ℚ) (s : SState) : StepRes :=
  if 0 ≤ f s.ck ∧ f s.ck < tolerance then .ret s.ck .loopExit
  else if |s.ak - s.ck| ≤ resolution then
    .ret (if 0 ≤ f s.ak then s.ak else s.ck) .resolutionExit
  else if f s.ak * f s.ck ≤ 0 then
    if f s.ck = 0 then .ret s.ck .exactZero
    else
      match newx_modregfalsi f s.ak s.ck
          (if 1 < s.k + 1 ∧ 0 < f s.ck * s.fck1 then 1/2 else 1) 1 with
      | none => .divZero
      | some ck2 => .next ⟨s.k + 1, s.ak, s.ck, f s.ck, ck2⟩
  else
    match newx_modregfalsi f s.ck s.bk 1
        (if 1 < s.k + 1 ∧ 0 < f s.ck * s.fck1 then 1/2 else 1) with
    | none => .divZero
    | some ck2 => .next ⟨s.k + 1, s.ck, s.bk, f s.ck, ck2⟩

/-- Overall outcome of modregulafalsi: a root returned before the loop because
prepareinput found an exact root at a guess (MOut.guess, line 47), a value
returned by the loop itself tagged with its return path, or a propagated
ZeroDivisionError. -/
inductive MOut where
  | guess (x : ℚ)
  | root (x : ℚ) (p : RetPath)
  | divZero
deriving DecidableEq

/-- The solver while-loop, iterated with fuel (the source loop is unbounded). -/
def runSolver (f : ℚ → ℚ) : ℕ → SState → Option MOut
  | 0, _ => none
  | fuel+1, s =>
    match solverStep f s with
    | .ret x p => some (.root x p)
    | .divZero => some .divZero
    | .next s2 => runSolver f fuel s2

/-- n passes of the solver loop, stopping with none if the loop returns or
raises first; exposes the state at the start of each iteration. -/
def stepN (f : ℚ → ℚ) : ℕ → SState → Option SState
  | 0, s => some s
  | n+1, s =>
    match solverStep f s with
    | .next s2 => stepN f n s2
    | _ => none

/-- modregulafalsi (lines 15-98): prepare the guesses, take the single-value
return if prepareinput produced one, otherwise seed the loop with the
unmodified regula-falsi interpolant and iterate. -/
def modregulafalsi (f : ℚ → ℚ) (a0 b0 : ℚ) (rs : ℕ → ℚ) (fuel : ℕ) : Option MOut :=
  match prepareinput f a0 b0 rs with
  | FOut.root x => some (MOut.guess x)
  | FOut.fail => some MOut.divZero
  | FOut.pair a b =>
    match newx_regfalsi f a b with
    | none => some MOut.divZero
    | some ck => runSolver f fuel ⟨0, a, b, -1, ck⟩
  | FOut.exhausted a b =>
    match newx_regfalsi f a b with
    | none => some MOut.divZero
    | some ck => runSolver f fuel ⟨0, a, b, -1, ck⟩

/-- The example cubic t³ + t - 1 used by the demo entry point and the tests. -/
def cubicf : ℚ → ℚ := fun t => t^3 + t - 1

/-- An always-positive function t² + 1, on which the bracket search can never
succeed; used to exhibit exhaustion of the 1000-probe cap. -/
def fsq : ℚ → ℚ := fun t => t * t + 1

/-- A function whose first interpolant from the bracket (0, 1) has a small
negative residual: f 0 = -1, f 1 = 1, f (1/2) = -1/100, and x - 51/101
elsewhere. -/
def f2cex : ℚ → ℚ := fun x =>
  if x = 0 then -1 else if x = 1 then 1 else if x = 1/2 then -1/100
  else x - 51/101

/-- A concrete random stream drawing 0 forever. -/
def rsZero : ℕ → ℚ := fun _ => 0

/-- A concrete random stream drawing 1 forever. -/
def rsOne : ℕ → ℚ := fun _ => 1

/-- When the guesses already bracket a root, prepareinput returns them
unchanged, whatever the random stream is. -/
lemma prepareinput_bracket (f : ℚ → ℚ) (a0 b0 : ℚ) (rs : ℕ → ℚ)
    (h : f a0 * f b0 < 0) :
    prepareinput f a0 b0 rs = FOut.pair a0 b0 := by
  have ha : f a0 ≠ 0 := by intro e; rw [e, zero_mul] at h; exact lt_irrefl 0 h
  have hb : f b0 ≠ 0 := by intro e; rw [e, mul_zero] at h; exact lt_irrefl 0 h
  simp [prepareinput, ha, hb, h]

/-- Every value returned by the solver loop either has residual inside the
half-open tolerance band (loop exit, or the dead exact-zero return) or was
produced by the resolution early exit. -/
lemma solverStep_ret_residual (f : ℚ → ℚ) (s : SState) (x : ℚ) (p : RetPath)
    (h : solverStep f s = StepRes.ret x p) :
    |f x| < tolerance ∨ p = RetPath.resolutionExit := by
  unfold solverStep at h
  by_cases h1 : 0 ≤ f s.ck ∧ f s.ck < tolerance
  · rw [if_pos h1] at h
    cases h
    left
    rw [abs_of_nonneg h1.1]
    exact h1.2
  · rw [if_neg h1] at h
    by_cases h2 : |s.ak - s.ck| ≤ resolution
    · rw [if_pos h2] at h
      cases h
      right
      rfl
    · rw [if_neg h2] at h
      by_cases h3 : f s.ak * f s.ck ≤ 0
      · rw [if_pos h3] at h
        by_cases h4 : f s.ck = 0
        · rw [if_pos h4] at h
          cases h
          left
          rw [h4]
          norm_num [tolerance]
        · rw [if_neg h4] at h
          split at h <;> cases h
      · rw [if_neg h3] at h
        split at h <;> cases h

/-- A pass of the solver loop that continues preserves the strict
opposite-sign bracket invariant. -/
lemma solverStep_next_inv (f : ℚ → ℚ) (s s2 : SState)
    (hinv : f s.ak * f s.bk < 0)
    (h : solverStep f s = StepRes.next s2) :
    f s2.ak * f s2.bk < 0 := by
  have hak : f s.ak ≠ 0 := by
    intro e; rw [e, zero_mul] at hinv; exact lt_irrefl 0 hinv
  unfold solverStep at h
  by_cases h1 : 0 ≤ f s.ck ∧ f s.ck < tolerance
  · rw [if_pos h1] at h
    cases h
  · rw [if_neg h1] at h
    by_cases h2 : |s.ak - s.ck| ≤ resolution
    · rw [if_pos h2] at h
      cases h
    · rw [if_neg h2] at h
      by_cases h3 : f s.ak * f s.ck ≤ 0
      · rw [if_pos h3] at h
        by_cases h4 : f s.ck = 0
        · rw [if_pos h4] at h
          cases h
        · rw [if_neg h4] at h
          split at h
          · cases h
          · cases h
            exact lt_of_le_of_ne h3 (mul_ne_zero hak h4)
      · rw [if_neg h3] at h
        have hpos : 0 < f s.ak * f s.ck := not_le.mp h3
        split at h
        · cases h
        · cases h
          show f s.ck * f s.bk < 0
          rcases mul_pos_iff.mp hpos with ⟨ha, hc⟩ | ⟨ha, hc⟩ <;>
            rcases mul_neg_iff.mp hinv with ⟨ha2, hb⟩ | ⟨ha2, hb⟩
          · exact mul_neg_of_pos_of_neg hc hb
          · linarith
          · linarith
          · exact mul_neg_of_neg_of_pos hc hb

/-- Any root produced by the solver loop within the given fuel satisfies the
residual bound or came from the resolution early exit. -/
lemma runSolver_root_residual (f : ℚ → ℚ) :
    ∀ (fuel : ℕ) (s : SState) (x : ℚ) (p : RetPath),
      runSolver f fuel s = some (MOut.root x p) →
      |f x| < tolerance ∨ p = RetPath.resolutionExit := by
  intro fuel
  induction fuel with
  | zero =>
    intro s x p h
    simp [runSolver] at h
  | succ n ih =>
    intro s x p h
    unfold runSolver at h
    cases hs : solverStep f s <;> rw [hs] at h
    · simp only [Option.some.injEq, MOut.root.injEq] at h
      obtain ⟨rfl, rfl⟩ := h
      exact solverStep_ret_residual f s _ _ hs
    · exact ih _ x p h
    · simp at h

/-- The bracket search never enters more probe iterations than its cap. -/
lemma findnewinputAux_count_le (f : ℚ → ℚ) (rs : ℕ → ℚ) :
    ∀ (n i : ℕ) (a b : ℚ), (findnewinputAux f rs i n a b).2 ≤ n := by
  intro n
  induction n with
  | zero =>
    intro i a b
    simp [findnewinputAux]
  | succ k ih =>
    intro i a b
    rw [findnewinputAux]
    rcases hg : newguessbydecay f a b with _ | c0
    · simp
    · simp only
      split_ifs <;> simp [addProbe]
      all_goals exact ih _ _ _

/-- A run of the bracket search that falls off the cap has entered exactly
n probe iterations. -/
lemma findnewinputAux_exhausted_count (f : ℚ → ℚ) (rs : ℕ → ℚ) :
    ∀ (n i : ℕ) (a b a2 b2 : ℚ),
      (findnewinputAux f rs i n a b).1 = FOut.exhausted a2 b2 →
      (findnewinputAux f rs i n a b).2 = n := by
  intro n
  induction n with
  | zero =>
    intro i a b a2 b2 _
    simp [findnewinputAux]
  | succ k ih =>
    intro i a b a2 b2 h
    rw [findnewinputAux] at h ⊢
    rcases hg : newguessbydecay f a b with _ | c0 <;> rw [hg] at h
    · simp at h
    · simp only at h ⊢
      split_ifs at h ⊢
      all_goals simp [addProbe] at h ⊢
      all_goals exact ih _ _ _ _ _ h

/-- On t² + 1 from the pair (0, 1) the bracket search cycles
(0,1) → (-3,0) → (0,1) deterministically, never consulting the random
stream, so an even probe budget is always fully exhausted with the pair
(0, 1) handed back. -/
lemma fsq_cycle (rs : ℕ → ℚ) : ∀ (n i : ℕ),
    findnewinputAux fsq rs i (2*n) 0 1 = (FOut.exhausted 0 1, 2*n) := by
  intro n
  induction n with
  | zero =>
    intro i
    norm_num [findnewinputAux]
  | succ k ih =>
    intro i
    have h2 : 2*(k+1) = 2*k+1+1 := by ring
    rw [h2]
    rw [findnewinputAux]
    norm_num [newguessbydecay, decayY, fsq]
    rw [findnewinputAux]
    norm_num [newguessbydecay, decayY, fsq, addProbe, ih i]

/-- Claim C1: every value x returned by modregulafalsi through the solver loop
(after a bracket is obtained, i.e. any MOut.root return) satisfies
|f x| < tolerance, or x was produced by the resolution early-exit rule. -/
theorem claim_C1 (f : ℚ → ℚ) (a0 b0 : ℚ) (rs : ℕ → ℚ) (fuel : ℕ)
    (x : ℚ) (p : RetPath)
    (h : modregulafalsi f a0 b0 rs fuel = some (MOut.root x p)) :
    |f x| < tolerance ∨ p = RetPath.resolutionExit := by
  unfold modregulafalsi at h
  cases hp : prepareinput f a0 b0 rs with
  | root c =>
    rw [hp] at h
    simp at h
  | pair a b =>
    rw [hp] at h
    have h2 : (match newx_regfalsi f a b with
        | none => some MOut.divZero
        | some ck => runSolver f fuel ⟨0, a, b, -1, ck⟩) =
        some (MOut.root x p) := h
    rcases hn : newx_regfalsi f a b with _ | ck <;> rw [hn] at h2
    · simp at h2
    · exact runSolver_root_residual f fuel _ x p h2
  | exhausted a b =>
    rw [hp] at h
    have h2 : (match newx_regfalsi f a b with
        | none => some MOut.divZero
        | some ck => runSolver f fuel ⟨0, a, b, -1, ck⟩) =
        some (MOut.root x p) := h
    rcases hn : newx_regfalsi f a b with _ | ck <;> rw [hn] at h2
    · simp at h2
    · exact runSolver_root_residual f fuel _ x p h2
  | fail =>
    rw [hp] at h
    simp at h

/-- Claim C1 witness: the demo run on t³ + t - 1 from (0, 1) returns
1129/1613 through the loop exit, and the theorem yields its residual bound. -/
theorem claim_C1_witness :
    |cubicf (1129/1613)| < tolerance ∨
      RetPath.loopExit = RetPath.resolutionExit :=
  claim_C1 cubicf 0 1 rsZero 3 (1129/1613) RetPath.loopExit
    (by norm_num [modregulafalsi, prepareinput, newx_regfalsi, runSolver,
      solverStep, newx_modregfalsi, cubicf, tolerance, resolution])

/-- Claim C2 counterexample: with f2cex the solver run from the bracket (0, 1)
first visits ck = 1/2 where |f(ck)| = 1/100 < tolerance with a negative
residual, yet the loop does not stop there: it returns 51/101 ≠ 1/2.  The
while condition of line 58 tests 0 <= f(ck) < tolerance without an absolute
value, so a negative residual inside the band keeps iterating. -/
theorem claim_C2_counterexample :
    |f2cex (1/2)| < tolerance ∧
    newx_regfalsi f2cex 0 1 = some (1/2) ∧
    modregulafalsi f2cex 0 1 rsZero 2 =
      some (MOut.root (51/101) RetPath.loopExit) ∧
    ((51 : ℚ)/101) ≠ 1/2 := by
  norm_num [f2cex, tolerance, newx_regfalsi, modregulafalsi, prepareinput,
    runSolver, solverStep, newx_modregfalsi, resolution, rsZero, abs_lt]

/-- Claim C2 (amended): the solver loop is terminal exactly when
0 <= f(ck) < tolerance — the source tests the signed residual, so a negative
residual never triggers the loop exit. -/
theorem claim_C2 (f : ℚ → ℚ) (s : SState) :
    (solverStep f s = StepRes.ret s.ck RetPath.loopExit ↔
      (0 ≤ f s.ck ∧ f s.ck < tolerance)) ∧
    (f s.ck < 0 → solverStep f s ≠ StepRes.ret s.ck RetPath.loopExit) := by
  have key : solverStep f s = StepRes.ret s.ck RetPath.loopExit ↔
      (0 ≤ f s.ck ∧ f s.ck < tolerance) := by
    constructor
    · intro h
      by_contra hc
      unfold solverStep at h
      rw [if_neg hc] at h
      by_cases h2 : |s.ak - s.ck| ≤ resolution
      · rw [if_pos h2] at h
        simp at h
      · rw [if_neg h2] at h
        by_cases h3 : f s.ak * f s.ck ≤ 0
        · rw [if_pos h3] at h
          by_cases h4 : f s.ck = 0
          · rw [if_pos h4] at h
            simp at h
          · rw [if_neg h4] at h
            split at h <;> cases h
        · rw [if_neg h3] at h
          split at h <;> cases h
    · intro h
      unfold solverStep
      rw [if_pos h]
  refine ⟨key, fun hneg hcontra => ?_⟩
  have := key.mp hcontra
  linarith [this.1]

/-- Claim C2 witness: at the concrete state with estimate 1/2 on f2cex the
negative residual -1/100 blocks the loop exit. -/
theorem claim_C2_witness :
    f2cex (1/2) < 0 ∧
    solverStep f2cex ⟨0, 0, 1, -1, 1/2⟩ ≠
      StepRes.ret (1/2) RetPath.loopExit :=
  ⟨by norm_num [f2cex],
   (claim_C2 f2cex ⟨0, 0, 1, -1, 1/2⟩).2 (by norm_num [f2cex])⟩

/-- Claim C3: a solver run started from a strict bracket, f(a)·f(b) < 0, keeps
a strict opposite-sign bracket at the start of every subsequent iteration:
each continuing loop pass (bk := ck when f(ak)·f(ck) <= 0, else ak := ck)
preserves the enclosure. -/
theorem claim_C3 (f : ℚ → ℚ) (a b ck : ℚ) (n : ℕ) (s2 : SState)
    (hbr : f a * f b < 0)
    (_hck : newx_regfalsi f a b = some ck)
    (hreach : stepN f n ⟨0, a, b, -1, ck⟩ = some s2) :
    f s2.ak * f s2.bk < 0 := by
  have key : ∀ (m : ℕ) (s s2 : SState), f s.ak * f s.bk < 0 →
      stepN f m s = some s2 → f s2.ak * f s2.bk < 0 := by
    intro m
    induction m with
    | zero =>
      intro s s2 h hs
      rw [stepN] at hs
      cases hs
      exact h
    | succ k ih =>
      intro s s2 h hs
      rw [stepN] at hs
      cases hstep : solverStep f s <;> rw [hstep] at hs
      · cases hs
      · exact ih _ _ (solverStep_next_inv f s _ h hstep) hs
      · cases hs
  exact key n ⟨0, a, b, -1, ck⟩ s2 hbr hreach

/-- Claim C3 witness: one pass of the cubic run from the bracket (0, 1)
reaches the state (ak, bk) = (1/2, 1), still a strict bracket. -/
theorem claim_C3_witness : cubicf (1/2) * cubicf 1 < 0 :=
  claim_C3 cubicf 0 1 (1/2) 1 ⟨1, 1/2, 1, -3/8, 7/11⟩
    (by norm_num [cubicf])
    (by norm_num [newx_regfalsi, cubicf])
    (by norm_num [stepN, solverStep, newx_modregfalsi, cubicf, tolerance,
      resolution])

/-- Claim C4: when the initial guesses already bracket a root,
f(a0)·f(b0) < 0, the run never consults the random stream: the result is the
same for any two streams, a pure function of the remaining inputs. -/
theorem claim_C4 (f : ℚ → ℚ) (a0 b0 : ℚ) (rs1 rs2 : ℕ → ℚ) (fuel : ℕ)
    (h : f a0 * f b0 < 0) :
    modregulafalsi f a0 b0 rs1 fuel = modregulafalsi f a0 b0 rs2 fuel := by
  unfold modregulafalsi
  rw [prepareinput_bracket f a0 b0 rs1 h, prepareinput_bracket f a0 b0 rs2 h]

/-- Claim C4 witness: the cubic run from the bracket (0, 1) is identical under
the all-zero and the all-one random streams. -/
theorem claim_C4_witness :
    modregulafalsi cubicf 0 1 rsZero 3 = modregulafalsi cubicf 0 1 rsOne 3 :=
  claim_C4 cubicf 0 1 rsZero rsOne 3 (by norm_num [cubicf])

/-- Claim C5: an exact root at a guess is returned before the solver loop —
a0 first, so a0 wins when both guesses are exact roots. -/
theorem claim_C5 (f : ℚ → ℚ) (a0 b0 : ℚ) (rs : ℕ → ℚ) (fuel : ℕ) :
    (f a0 = 0 → modregulafalsi f a0 b0 rs fuel = some (MOut.guess a0)) ∧
    (f a0 ≠ 0 → f b0 = 0 →
      modregulafalsi f a0 b0 rs fuel = some (MOut.guess b0)) ∧
    (f a0 = 0 → f b0 = 0 →
      modregulafalsi f a0 b0 rs fuel = some (MOut.guess a0)) := by
  refine ⟨fun h => ?_, fun h1 h2 => ?_, fun h _ => ?_⟩
  · simp [modregulafalsi, prepareinput, h]
  · simp [modregulafalsi, prepareinput, h1, h2]
  · simp [modregulafalsi, prepareinput, h]

/-- Claim C5 witness: with f(t) = t the guess 0 is returned at once; with
f(t) = t - 1 the second guess 1 is returned. -/
theorem claim_C5_witness :
    modregulafalsi (fun t => t) 0 1 rsZero 1 = some (MOut.guess 0) ∧
    modregulafalsi (fun t => t - 1) 0 1 rsZero 1 = some (MOut.guess 1) :=
  ⟨(claim_C5 (fun t => t) 0 1 rsZero 1).1 rfl,
   (claim_C5 (fun t => t - 1) 0 1 rsZero 1).2.1 (by norm_num) (by norm_num)⟩

/-- Claim C6: the bracket search enters at most 1000 probe iterations; a
run that exhausts the cap has entered exactly its cap of probes and hands
back the current pair, which can still be same-signed, as the concrete
always-positive function t² + 1 shows: from (0, 1) the search exhausts all
1000 probes and returns (0, 1) itself. -/
theorem claim_C6 :
    (∀ (f : ℚ → ℚ) (rs : ℕ → ℚ) (i n : ℕ) (a b : ℚ),
        (findnewinputAux f rs i n a b).2 ≤ n) ∧
    (∀ (f : ℚ → ℚ) (rs : ℕ → ℚ) (i n : ℕ) (a b a2 b2 : ℚ),
        (findnewinputAux f rs i n a b).1 = FOut.exhausted a2 b2 →
        (findnewinputAux f rs i n a b).2 = n) ∧
    findnewinput fsq 0 1 rsZero = FOut.exhausted 0 1 ∧
    0 < fsq 0 * fsq 1 := by
  refine ⟨fun f rs i n a b => findnewinputAux_count_le f rs n i a b,
    fun f rs i n a b a2 b2 h => findnewinputAux_exhausted_count f rs n i a b a2 b2 h,
    ?_, by norm_num [fsq]⟩
  have h := fsq_cycle rsZero 500 0
  norm_num at h
  simp [findnewinput, h]

/-- Claim C6 witness: the exhausted search on t² + 1 from (0, 1) used exactly
1000 probe iterations. -/
theorem claim_C6_witness :
    (findnewinputAux fsq rsZero 0 1000 0 1).2 = 1000 := by
  have h := fsq_cycle rsZero 500 0
  norm_num at h
  exact claim_C6.2.1 fsq rsZero 0 1000 0 1 0 1 (by simp [h])

/-- Claim C7: on t³ + t - 1 from the same-sign pair (0, 1/2) the bracket
search returns the opposite-sign pair (1/2, 7/5) with 7/5 > 0.69 after a
single probe, for every random stream — the tie-break is never consulted. -/
theorem claim_C7 (rs : ℕ → ℚ) :
    findnewinput cubicf 0 (1/2) rs = FOut.pair (1/2) (7/5) ∧
    (69/100 : ℚ) < 7/5 ∧
    cubicf (1/2) * cubicf (7/5) < 0 ∧
    (findnewinputAux cubicf rs 0 1000 0 (1/2)).2 = 1 := by
  have habs : |(3:ℚ)/8| = 3/8 := abs_of_nonneg (by norm_num)
  refine ⟨?_, by norm_num, by norm_num [cubicf], ?_⟩
  · rw [findnewinput, show (1000 : ℕ) = 999+1 from rfl, findnewinputAux]
    norm_num [newguessbydecay, decayY, cubicf, habs]
  · rw [show (1000 : ℕ) = 999+1 from rfl, findnewinputAux]
    norm_num [newguessbydecay, decayY, cubicf, habs]

/-- Claim C7 witness: the theorem instantiated at the all-zero stream. -/
theorem claim_C7_witness :
    findnewinput cubicf 0 (1/2) rsZero = FOut.pair (1/2) (7/5) ∧
    (69/100 : ℚ) < 7/5 ∧
    cubicf (1/2) * cubicf (7/5) < 0 ∧
    (findnewinputAux cubicf rsZero 0 1000 0 (1/2)).2 = 1 :=
  claim_C7 rsZero

/-- Claim C8: with a nonzero denominator the damped update is exactly
(ak·β·f(bk) - bk·α·f(ak)) / (β·f(bk) - α·f(ak)); on the cubic with
ak = 0, bk = 1, α = 1, β = 1/2 it returns exactly 2/3. -/
theorem claim_C8 (f : ℚ → ℚ) (ak bk alpha beta : ℚ)
    (h : beta * f bk - alpha * f ak ≠ 0) :
    newx_modregfalsi f ak bk alpha beta =
      some ((ak * beta * f bk - bk * alpha * f ak) /
        (beta * f bk - alpha * f ak)) ∧
    newx_modregfalsi cubicf 0 1 1 (1/2) = some (2/3) := by
  constructor
  · unfold newx_modregfalsi
    rw [if_neg h]
  · norm_num [newx_modregfalsi, cubicf]

/-- Claim C8 witness: the theorem applied to the cubic at ak = 0, bk = 1,
α = 1, β = 1/2, whose denominator 3/2 is nonzero. -/
theorem claim_C8_witness :
    newx_modregfalsi cubicf 0 1 1 (1/2) =
      some ((0 * (1/2) * cubicf 1 - 1 * 1 * cubicf 0) /
        ((1/2) * cubicf 1 - 1 * cubicf 0)) ∧
    newx_modregfalsi cubicf 0 1 1 (1/2) = some (2/3) :=
  claim_C8 cubicf 0 1 1 (1/2) (by norm_num [cubicf])

/-- Claim C9: the decay probe fails exactly when the slope
(f(b) - f(a))/(b - a) is zero (with rational division-by-zero convention,
this also covers b = a, where Python raises while computing the slope); with
a nonzero slope it returns a + (y - f(a))/slope, and a probe failure makes
the enclosing bracket-search iteration fail rather than return a pair. -/
theorem claim_C9 (f : ℚ → ℚ) (a b : ℚ) :
    (newguessbydecay f a b = none ↔ (f b - f a) / (b - a) = 0) ∧
    ((f b - f a) / (b - a) ≠ 0 →
      newguessbydecay f a b =
        some ((decayY f a b - f a) / ((f b - f a) / (b - a)) + a)) ∧
    (∀ (rs : ℕ → ℚ) (i n : ℕ), newguessbydecay f a b = none →
      (findnewinputAux f rs i (n+1) a b).1 = FOut.fail) := by
  refine ⟨?_, fun h => ?_, fun rs i n h => ?_⟩
  · unfold newguessbydecay
    by_cases hba : b - a = 0
    · rw [if_pos hba, hba, div_zero]
      simp
    · rw [if_neg hba]
      by_cases hs : (f b - f a) / (b - a) = 0
      · simp [hs]
      · simp [hs]
  · have hba : b - a ≠ 0 := by
      intro e
      exact h (by rw [e, div_zero])
    unfold newguessbydecay
    rw [if_neg hba, if_neg h]
  · rw [findnewinputAux, h]

/-- Claim C9 witness: on the cubic over (0, 1) the slope is 2 and the probe
returns a value; at the degenerate pair (1, 1) the probe fails and the
bracket-search iteration reports failure. -/
theorem claim_C9_witness :
    newguessbydecay cubicf 0 1 =
      some ((decayY cubicf 0 1 - cubicf 0) /
        ((cubicf 1 - cubicf 0) / (1 - 0)) + 0) ∧
    (findnewinputAux cubicf rsZero 0 1 1 1).1 = FOut.fail :=
  ⟨(claim_C9 cubicf 0 1).2.1 (by norm_num [cubicf]),
   (claim_C9 cubicf 1 1).2.2 rsZero 0 0
     (by norm_num [newguessbydecay])⟩

/-- Claim C10: calling the entry point with equal guesses x = a0 = b0 where
f(x) ≠ 0 propagates an unguarded ZeroDivisionError: the square f(x)·f(x) is
positive, so the bracket search runs and its first probe divides by
b - a = 0. -/
theorem claim_C10 (f : ℚ → ℚ) (x : ℚ) (rs : ℕ → ℚ) (fuel : ℕ)
    (h : f x ≠ 0) :
    modregulafalsi f x x rs fuel = some MOut.divZero := by
  have hsq : ¬ (f x * f x < 0) := not_lt.mpr (mul_self_nonneg (f x))
  have hng : newguessbydecay f x x = none := by simp [newguessbydecay]
  have hf : findnewinput f x x rs = FOut.fail := by
    rw [findnewinput, show (1000 : ℕ) = 999+1 from rfl, findnewinputAux, hng]
  simp [modregulafalsi, prepareinput, h, hsq, hf]

/-- Claim C10 witness: the cubic at equal guesses 1, 1 (where f(1) = 1 ≠ 0)
raises the division error. -/
theorem claim_C10_witness :
    modregulafalsi cubicf 1 1 rsZero 0 = some MOut.divZero :=
  claim_C10 cubicf 1 rsZero 0 (by norm_num [cubicf])

end ModRegulaFalsi
